import Mathlib

/-!
A shallow embedding of the request-handling pipeline of the
`codecrafters-http-server` repository (`src/main.rs`), together with
theorems checking the repository's specification against it.

The embedding models:
  * the Rust string primitives the code uses (`str::trim`,
    `str::splitn(3, ' ')`, `str::split_once(':')`, `str::strip_prefix`,
    `u64::from_str`, `str::len` as UTF-8 byte length);
  * the header `HashMap` (`insert` overwrites, `get` is case-sensitive);
  * the filesystem as an association list from joined path strings to
    byte contents (`File::open`/`metadata`/`File::create`/`copy_buf`);
  * the buffered stream's output side as a trace of `write_all` chunks
    and `flush` events, so that flushing behaviour is observable;
  * `handle_request` itself: request-line parsing, header-block
    parsing, routing, and response writing, plus the supervising task in
    `spawn_handler` that converts an `HttpError` into an error response.

The input side of the stream is modelled as the request line and the
list of header lines that successive `read_line` calls return, plus the
raw bytes that remain after the header block (the body for uploads).
-/

namespace HttpServer

/-- Characters accepted by Rust's `char::is_whitespace` (the Unicode
`White_Space` property), used by `str::trim`. -/
def isRustWhitespace (c : Char) : Bool :=
  c = ' ' || c = '\t' || c = '\n' || c = '\x0b' || c = '\x0c' || c = '\r' ||
  c = '\u0085' || c = ' ' || c = ' ' ||
  (' ' ≤ c && c ≤ ' ') ||
  c = ' ' || c = ' ' || c = ' ' || c = ' ' || c = '　'

/-- Drop the longest suffix of `l` whose characters satisfy `p`. -/
def dropWhileEnd (p : Char → Bool) (l : List Char) : List Char :=
  (l.reverse.dropWhile p).reverse

/-- Rust `str::trim`: remove leading and trailing whitespace. -/
def rustTrim (s : String) : String :=
  String.mk (dropWhileEnd isRustWhitespace (s.data.dropWhile isRustWhitespace))

/-- Split a character list at the first occurrence of `sep`; `none` when
`sep` does not occur. Models Rust `str::split_once` at character level. -/
def splitOnceChar (sep : Char) : List Char → Option (List Char × List Char)
  | [] => none
  | c :: cs =>
    if c = sep then some ([], cs)
    else match splitOnceChar sep cs with
      | none => none
      | some (a, b) => some (c :: a, b)

/-- Rust `str::split_once(sep)`. -/
def rustSplitOnce (sep : Char) (s : String) : Option (String × String) :=
  match splitOnceChar sep s.data with
  | none => none
  | some (a, b) => some (String.mk a, String.mk b)

/-- Rust `str::splitn(n, sep)` at character level: at most `n` pieces,
the last piece keeps any remaining separators unsplit. -/
def splitnCharAux : Nat → Char → List Char → List (List Char)
  | 0, _, _ => []
  | 1, _, s => [s]
  | n + 2, sep, s =>
    match splitOnceChar sep s with
    | none => [s]
    | some (a, b) => a :: splitnCharAux (n + 1) sep b

/-- Rust `str::splitn(n, sep)` (as the list of all yielded pieces). -/
def rustSplitn (n : Nat) (sep : Char) (s : String) : List String :=
  (splitnCharAux n sep s.data).map String.mk

/-- Rust `str::strip_prefix` at character level. -/
def dropPfxChars : List Char → List Char → Option (List Char)
  | [], s => some s
  | _ :: _, [] => none
  | p :: ps, c :: cs => if c = p then dropPfxChars ps cs else none

/-- Rust `str::strip_prefix`. -/
def stripPfx (p s : String) : Option String :=
  match dropPfxChars p.data s.data with
  | none => none
  | some r => some (String.mk r)

/-- Rust `u64::from_str` (`"...".parse::<u64>()`): an optional leading
`+`, then one or more ASCII digits, value below `2 ^ 64`. -/
def parseU64 (s : String) : Option Nat :=
  let ds := match s.data with
    | '+' :: rest => rest
    | l => l
  match ds with
  | [] => none
  | _ =>
    if ds.all Char.isDigit then
      let v := ds.foldl (fun acc c => acc * 10 + (c.toNat - '0'.toNat)) 0
      if v < 2 ^ 64 then some v else none
    else none

/-- UTF-8 encoding of one character (what Rust `str::as_bytes` holds). -/
def strBytes (s : String) : List UInt8 :=
  s.data.flatMap String.utf8EncodeChar

/-- Rust `str::len`: the UTF-8 byte length of a string. -/
def strByteLen (s : String) : Nat :=
  (strBytes s).length

/-- The header map, together with insertion order (only lookups are used
by the server, so order is irrelevant; `hmInsert` mirrors
`HashMap::insert`, which overwrites the value of an existing key). -/
abbrev Headers := List (String × String)

/-- `HashMap::insert`: replace the value at an existing key, otherwise
add the binding. -/
def hmInsert : Headers → String → String → Headers
  | [], k, v => [(k, v)]
  | (k', v') :: rest, k, v =>
    if k' = k then (k, v) :: rest else (k', v') :: hmInsert rest k v

/-- `HashMap::get`: case-sensitive exact-key lookup. -/
def hmGet : Headers → String → Option String
  | [], _ => none
  | (k', v') :: rest, k => if k' = k then some v' else hmGet rest k

/-- The filesystem visible to the server: joined path string ↦ contents.
`File::open` failure is modelled as the path being absent. -/
abbrev Fs := List (String × List UInt8)

/-- Look up a file's contents (`File::open` + read). -/
def fsLookup : Fs → String → Option (List UInt8)
  | [], _ => none
  | (p, c) :: rest, q => if p = q then some c else fsLookup rest q

/-- `File::create` + write: create the file or truncate an existing one,
then store exactly the given bytes. -/
def fsInsert : Fs → String → List UInt8 → Fs
  | [], p, c => [(p, c)]
  | (p', c') :: rest, p, c =>
    if p' = p then (p, c) :: rest else (p', c') :: fsInsert rest p c

/-- Rust `Path::join` on string paths: an absolute argument replaces the
base; otherwise the argument is appended behind a `/` separator. -/
def pathJoin (base name : String) : String :=
  if name.data.head? = some '/' then name
  else if base = "" then name
  else if base.data.getLast? = some '/' then base ++ name
  else base ++ "/" ++ name

/-- `HttpError` (`src/main.rs` lines 35–78): a status code and the
message that `Display` renders (`self.error.to_string()`). -/
structure HttpError where
  status : Nat
  msg : String
deriving DecidableEq, Repr

/-- `HttpError::bad_request`. -/
def HttpError.badRequest (m : String) : HttpError :=
  ⟨400, "Bad request: " ++ m⟩

/-- `HttpError::not_found`. -/
def HttpError.notFound : HttpError :=
  ⟨404, "Not found"⟩

/-- `HttpError::method_not_allowed`. -/
def HttpError.methodNotAllowed (m : String) : HttpError :=
  ⟨405, "Method " ++ m ++ " not allowed"⟩

/-- One observable action on the output side of the buffered stream:
a `write_all` of some bytes, or a `flush`. -/
inductive WEvent where
  | chunk (bs : List UInt8)
  | flush
deriving DecidableEq, Repr

/-- `write_header_only_response` (lines 251–270): status line
`HTTP/1.1 <code>\r\n`, each header as `<k>: <v>\r\n`, then a blank
line. No flush. -/
def writeHeaderOnlyResponse (status : Nat) (headers : List (String × String)) :
    List WEvent :=
  [WEvent.chunk (strBytes "HTTP/1.1 "),
   WEvent.chunk (strBytes (Nat.repr status)),
   WEvent.chunk (strBytes "\r\n")] ++
  (headers.flatMap fun kv =>
    [WEvent.chunk (strBytes kv.1), WEvent.chunk (strBytes ": "),
     WEvent.chunk (strBytes kv.2), WEvent.chunk (strBytes "\r\n")]) ++
  [WEvent.chunk (strBytes "\r\n")]

/-- `write_string_response` (lines 225–236): header block, then the body
string's bytes, then a flush. -/
def writeStringResponse (status : Nat) (headers : List (String × String))
    (body : String) : List WEvent :=
  writeHeaderOnlyResponse status headers ++
  [WEvent.chunk (strBytes body), WEvent.flush]

/-- `write_byte_stream_response` (lines 238–249): header block, then the
streamed body bytes (`tokio::io::copy`), then a flush. -/
def writeByteStreamResponse (status : Nat) (headers : List (String × String))
    (body : List UInt8) : List WEvent :=
  writeHeaderOnlyResponse status headers ++
  [WEvent.chunk body, WEvent.flush]

/-- The trace ends in a flush: every written byte was handed to the
peer before the connection closes. -/
def flushedAtEnd (tr : List WEvent) : Prop :=
  tr.getLast? = some WEvent.flush

instance (tr : List WEvent) : Decidable (flushedAtEnd tr) := by
  unfold flushedAtEnd; infer_instance

/-- Request-line parsing (lines 113–124): trim the line, `splitn(3, ' ')`,
then take method, path and version in turn, failing with the code's
three `bad_request` messages when a token is missing. -/
def parseRequestLine (line : String) :
    Except HttpError (String × String × String) :=
  match rustSplitn 3 ' ' (rustTrim line) with
  | [] => Except.error (HttpError.badRequest "no method found in header")
  | [_] => Except.error (HttpError.badRequest "no path found in header")
  | [_, _] => Except.error (HttpError.badRequest "no standard found in header")
  | m :: p :: st :: _ => Except.ok (m, p, st)

/-- The header-reading loop (lines 128–141): `read_line` until a line
that trims to empty (a blank line, or the empty string at EOF). -/
def collectHeaderLines (ls : List String) : List String :=
  ls.takeWhile fun l => !(rustTrim l).isEmpty

/-- The header-map construction loop (lines 143–149): each line must
contain a `:`; split at the first one, trim key and value, insert. -/
def parseHeaderLinesAux (acc : Headers) : List String → Except HttpError Headers
  | [] => Except.ok acc
  | l :: rest =>
    match rustSplitOnce ':' l with
    | none => Except.error (HttpError.badRequest "invalid header format")
    | some (k, v) => parseHeaderLinesAux (hmInsert acc (rustTrim k) (rustTrim v)) rest

/-- Build the header map from the collected header lines. -/
def parseHeaderLines (ls : List String) : Except HttpError Headers :=
  parseHeaderLinesAux [] ls

/-- The routing if/else chain of `handle_request` (lines 153–222), after
the request line and header block have been parsed. Inputs: the parsed
method and path, the header map, the raw bytes remaining on the stream
after the header block (`rest`), the base directory and the filesystem.
Output: either the trace of write/flush events of the successful
response, or the `HttpError` that aborted the request — paired with the
filesystem as left by the handler. -/
def route (method path : String) (headers : Headers) (rest : List UInt8)
    (base : String) (fs : Fs) : Except HttpError (List WEvent) × Fs :=
  if path = "/" then
    (Except.ok (writeHeaderOnlyResponse 200 []), fs)
  else match stripPfx "/echo/" path with
  | some subPath =>
    (Except.ok (writeStringResponse 200
      [("Content-Type", "text/plain"),
       ("Content-Length", Nat.repr (strByteLen subPath))] subPath), fs)
  | none =>
  if path = "/user-agent" then
    match hmGet headers "User-Agent" with
    | none => (Except.error (HttpError.badRequest "no user agent header in request"), fs)
    | some userAgent =>
      (Except.ok (writeStringResponse 200
        [("Content-Type", "text/plain"),
         ("Content-Length", Nat.repr (strByteLen userAgent))] userAgent), fs)
  else match stripPfx "/files/" path with
  | some filename =>
    if method = "GET" then
      match fsLookup fs (pathJoin base filename) with
      | none => (Except.error HttpError.notFound, fs)
      | some content =>
        (Except.ok (writeByteStreamResponse 200
          [("Content-Type", "application/octet-stream"),
           ("Content-Length", Nat.repr content.length)] content), fs)
    else if method = "POST" then
      match (hmGet headers "Content-Length").bind parseU64 with
      | none =>
        (Except.error (HttpError.badRequest "No valid Content-Length was provided"), fs)
      | some contentLength =>
        (Except.ok (writeHeaderOnlyResponse 201 []),
         fsInsert fs (pathJoin base filename) (rest.take contentLength))
    else (Except.error (HttpError.methodNotAllowed method), fs)
  | none => (Except.error HttpError.notFound, fs)

/-- `handle_request` (lines 101–223): parse the request line, collect
and parse the header block, then route. Any `HttpError` is returned to
the caller (`spawn_handler`); nothing here panics. -/
def handleRequest (requestLine : String) (ls : List String) (rest : List UInt8)
    (base : String) (fs : Fs) : Except HttpError (List WEvent) × Fs :=
  match parseRequestLine requestLine with
  | Except.error e => (Except.error e, fs)
  | Except.ok (method, path, _) =>
    match parseHeaderLines (collectHeaderLines ls) with
    | Except.error e => (Except.error e, fs)
    | Except.ok headers => route method path headers rest base fs

/-- The supervising task of `spawn_handler` (lines 90–99): run
`handle_request`; on an `HttpError`, write the error response
(`HttpError::write_to_stream`, which uses `write_string_response` with
the error's status and message and therefore flushes). The connection
then closes. -/
def connectionTrace (requestLine : String) (ls : List String) (rest : List UInt8)
    (base : String) (fs : Fs) : List WEvent × Fs :=
  match handleRequest requestLine ls rest base fs with
  | (Except.ok tr, fs') => (tr, fs')
  | (Except.error e, fs') => (writeStringResponse e.status [] e.msg, fs')

/-- Modelled from the spec: lexical filesystem path resolution used only
to express §9's "Path-join without traversal checks" observation — `..`
removes the preceding component (or is kept when there is none), `.` and
empty components are dropped. This is OS behaviour, not repository
code. -/
def resolveComps (acc : List String) : List String → List String
  | [] => acc
  | "" :: rest => resolveComps acc rest
  | "." :: rest => resolveComps acc rest
  | ".." :: rest =>
    match acc.getLast? with
    | none => resolveComps [".."] rest
    | some ".." => resolveComps (acc ++ [".."]) rest
    | some _ => resolveComps (acc.dropLast) rest
  | comp :: rest => resolveComps (acc ++ [comp]) rest

/-- Split a path into its `/`-separated components. -/
def pathComps (p : String) : List String :=
  (p.data.splitOn '/').map String.mk

/-- Modelled from the spec: resolve a relative path lexically. -/
def resolvePath (p : String) : String :=
  String.intercalate "/" (resolveComps [] (pathComps p))

/-- `p` is the base directory itself or a path below it. -/
def isUnder (base p : String) : Prop :=
  p = base ∨ (dropPfxChars (base ++ "/").data p.data).isSome

instance (base p : String) : Decidable (isUnder base p) := by
  unfold isUnder; infer_instance

/-- The path contains a `..` component. -/
def hasDotDot (p : String) : Prop :=
  ".." ∈ pathComps p

instance (p : String) : Decidable (hasDotDot p) := by
  unfold hasDotDot; infer_instance

/-- The trimmed value of the last header line whose trimmed key is `k`
(`none` when no line has key `k`). -/
def lastHeaderValue (k : String) : List String → Option String
  | [] => none
  | l :: rest =>
    match lastHeaderValue k rest with
    | some v => some v
    | none =>
      match rustSplitOnce ':' l with
      | some (k', v) => if rustTrim k' = k then some (rustTrim v) else none
      | none => none

/-! ## Helper lemmas -/

lemma dataAppend (a b : String) : (a ++ b).data = a.data ++ b.data := rfl

lemma dropPfxChars_self_append (p r : List Char) :
    dropPfxChars p (p ++ r) = some r := by
  induction p with
  | nil => rfl
  | cons c cs ih => simp [dropPfxChars, ih]

lemma stripPfx_self_append (p s : String) : stripPfx p (p ++ s) = some s := by
  have h : (p ++ s).data = p.data ++ s.data := rfl
  simp [stripPfx, h, dropPfxChars_self_append]

lemma stringDataEq {a b : String} (h : a.data = b.data) : a = b := by
  cases a; cases b; exact congrArg String.mk h

lemma dropPfxChars_sound : ∀ (p s r : List Char),
    dropPfxChars p s = some r → s = p ++ r := by
  intro p
  induction p with
  | nil =>
    intro s r h
    simp [dropPfxChars] at h
    simp [h]
  | cons c cs ih =>
    intro s r h
    cases s with
    | nil => simp [dropPfxChars] at h
    | cons d ds =>
      by_cases hd : d = c
      · subst hd
        simp [dropPfxChars] at h
        simpa using ih ds r h
      · simp [dropPfxChars, hd] at h

lemma stripPfx_eq_some {p s r : String} (h : stripPfx p s = some r) :
    s = p ++ r := by
  unfold stripPfx at h
  cases hd : dropPfxChars p.data s.data with
  | none => rw [hd] at h; exact absurd h (by simp)
  | some l =>
    rw [hd] at h
    have hr : String.mk l = r := by injection h
    have hs : s.data = p.data ++ l := dropPfxChars_sound _ _ _ hd
    have hrd : r.data = l := by rw [← hr]
    apply stringDataEq
    rw [hs, dataAppend, hrd]

lemma echo_ne_root (s : String) : ("/echo/" ++ s : String) ≠ "/" := by
  intro h
  have h2 := congrArg String.data h
  simp [String.data] at h2

lemma files_ne_root (f : String) : ("/files/" ++ f : String) ≠ "/" := by
  intro h
  have h2 := congrArg String.data h
  simp [String.data] at h2

lemma files_ne_userAgent (f : String) :
    ("/files/" ++ f : String) ≠ "/user-agent" := by
  intro h
  have h2 := congrArg String.data h
  simp [String.data] at h2

lemma stripPfx_echo_files (f : String) :
    stripPfx "/echo/" ("/files/" ++ f) = none := rfl

lemma hmGet_hmInsert (m : Headers) (k v k' : String) :
    hmGet (hmInsert m k v) k' = if k = k' then some v else hmGet m k' := by
  induction m with
  | nil => simp [hmInsert, hmGet]
  | cons a rest ih =>
    obtain ⟨ak, av⟩ := a
    by_cases hak : ak = k
    · subst hak
      by_cases h2 : ak = k' <;> simp [hmInsert, hmGet, h2]
    · by_cases h3 : k = k'
      · subst h3
        simp [hmInsert, hmGet, hak, ih]
      · by_cases h2 : ak = k'
        · subst h2
          simp [hmInsert, hmGet, hak, h3]
        · simp [hmInsert, hmGet, hak, h2, h3, ih]

lemma fsLookup_fsInsert (fs : Fs) (p : String) (c : List UInt8) :
    fsLookup (fsInsert fs p c) p = some c := by
  induction fs with
  | nil => simp [fsInsert, fsLookup]
  | cons a rest ih =>
    obtain ⟨ap, ac⟩ := a
    by_cases hap : ap = p
    · subst hap; simp [fsInsert, fsLookup]
    · simp [fsInsert, fsLookup, hap, ih]

lemma parseAux_hmGet (k : String) : ∀ (ls : List String) (acc m : Headers),
    parseHeaderLinesAux acc ls = Except.ok m →
    hmGet m k = (match lastHeaderValue k ls with
      | some v => some v
      | none => hmGet acc k) := by
  intro ls
  induction ls with
  | nil =>
    intro acc m h
    have : acc = m := by simpa [parseHeaderLinesAux] using h
    subst this
    simp [lastHeaderValue]
  | cons l rest ih =>
    intro acc m h
    unfold parseHeaderLinesAux at h
    cases hsp : rustSplitOnce ':' l with
    | none => rw [hsp] at h; exact absurd h (by simp)
    | some kv =>
      obtain ⟨k0, v0⟩ := kv
      rw [hsp] at h
      have hgo := ih _ _ h
      rw [hgo]
      cases hl : lastHeaderValue k rest with
      | some w => simp [lastHeaderValue, hl]
      | none =>
        by_cases ht : rustTrim k0 = k
        · simp [lastHeaderValue, hl, hsp, ht, hmGet_hmInsert]
        · simp [lastHeaderValue, hl, hsp, ht, hmGet_hmInsert]

lemma route_userAgent (method : String) (m : Headers) (rest : List UInt8)
    (base : String) (fs : Fs) :
    route method "/user-agent" m rest base fs =
      (match hmGet m "User-Agent" with
       | none => (Except.error (HttpError.badRequest "no user agent header in request"), fs)
       | some userAgent =>
         (Except.ok (writeStringResponse 200
           [("Content-Type", "text/plain"),
            ("Content-Length", Nat.repr (strByteLen userAgent))] userAgent), fs)) := rfl

lemma route_files_eq (method f : String) (headers : Headers) (rest : List UInt8)
    (base : String) (fs : Fs) :
    route method ("/files/" ++ f) headers rest base fs =
      (if method = "GET" then
        match fsLookup fs (pathJoin base f) with
        | none => (Except.error HttpError.notFound, fs)
        | some content =>
          (Except.ok (writeByteStreamResponse 200
            [("Content-Type", "application/octet-stream"),
             ("Content-Length", Nat.repr content.length)] content), fs)
      else if method = "POST" then
        match (hmGet headers "Content-Length").bind parseU64 with
        | none =>
          (Except.error (HttpError.badRequest "No valid Content-Length was provided"), fs)
        | some contentLength =>
          (Except.ok (writeHeaderOnlyResponse 201 []),
           fsInsert fs (pathJoin base f) (rest.take contentLength))
      else (Except.error (HttpError.methodNotAllowed method), fs)) := by
  simp [route, files_ne_root, stripPfx_echo_files, files_ne_userAgent,
    stripPfx_self_append]

/-! ## Claim theorems -/

/-- C1: For every string `s` and every request method (and any header
map, stream remainder, base directory and filesystem), a request whose
path is `"/echo/"` followed by `s` produces a 200 response whose headers
are `Content-Type: text/plain` and `Content-Length` equal to the UTF-8
byte length of `s`, and whose body is exactly `s` (`src/main.rs`
lines 155–167). The statement holds for every `s`, in particular for
those containing no further `/`. -/
theorem echo_returns_body_verbatim (method s : String) (headers : Headers)
    (rest : List UInt8) (base : String) (fs : Fs) :
    route method ("/echo/" ++ s) headers rest base fs =
      (Except.ok (writeStringResponse 200
        [("Content-Type", "text/plain"),
         ("Content-Length", Nat.repr (strByteLen s))] s), fs) := by
  simp [route, echo_ne_root, stripPfx_self_append]

/-- C2: counter-evidence at the claim's own inputs. The claim says that
for every successfully handled request on every route the stream is
flushed after the full response; but `write_header_only_response`
(lines 251–270) never flushes, so the 200 response to `GET /` and the
201 response to a successful `POST /files/<f>` end without any flush
event, while the string/byte-stream writers do end with a flush. -/
theorem headerOnly_responses_not_flushed :
    (connectionTrace "GET / HTTP/1.1\r\n" [] [] "d" []).1
        = writeHeaderOnlyResponse 200 [] ∧
    ¬ flushedAtEnd (connectionTrace "GET / HTTP/1.1\r\n" [] [] "d" []).1 ∧
    (route "POST" "/files/a" [("Content-Length", "1")] [104] "d" []).1
        = Except.ok (writeHeaderOnlyResponse 201 []) ∧
    ¬ flushedAtEnd (writeHeaderOnlyResponse 201 []) ∧
    flushedAtEnd (writeStringResponse 200 [] "x") :=
  ⟨rfl, by decide, rfl, by decide, by decide⟩

/-- C3: Round-trip. For every byte sequence `bytes` and filename `f`,
a `POST /files/<f>` whose `Content-Length` parses to `bytes.length` and
whose remaining stream is exactly `bytes`, followed by a
`GET /files/<f>` on the resulting filesystem, yields a 200 response
whose body is exactly `bytes` and whose `Content-Length` header equals
`bytes.length` (lines 183–216). -/
theorem post_then_get_roundtrip (bytes : List UInt8) (f : String)
    (headers headers2 : Headers) (rest2 : List UInt8) (base : String) (fs : Fs)
    (cl : String)
    (h1 : hmGet headers "Content-Length" = some cl)
    (h2 : parseU64 cl = some bytes.length) :
    (route "POST" ("/files/" ++ f) headers bytes base fs).1
        = Except.ok (writeHeaderOnlyResponse 201 []) ∧
    route "GET" ("/files/" ++ f) headers2 rest2 base
        (route "POST" ("/files/" ++ f) headers bytes base fs).2 =
      (Except.ok (writeByteStreamResponse 200
        [("Content-Type", "application/octet-stream"),
         ("Content-Length", Nat.repr bytes.length)] bytes),
       (route "POST" ("/files/" ++ f) headers bytes base fs).2) := by
  have hpost : route "POST" ("/files/" ++ f) headers bytes base fs =
      (Except.ok (writeHeaderOnlyResponse 201 []),
       fsInsert fs (pathJoin base f) bytes) := by
    rw [route_files_eq]
    simp [h1, h2, List.take_length]
  rw [hpost]
  refine ⟨rfl, ?_⟩
  rw [route_files_eq]
  simp [fsLookup_fsInsert]

/-- Witness for C3 at a concrete upload: `hello` (5 bytes) posted to
`report.txt` and read back. -/
theorem post_then_get_roundtrip_witness :
    (route "POST" "/files/report.txt" [("Content-Length", "5")]
        [104, 101, 108, 108, 111] "d" []).1
      = Except.ok (writeHeaderOnlyResponse 201 []) ∧
    route "GET" "/files/report.txt" [] [] "d"
        (route "POST" "/files/report.txt" [("Content-Length", "5")]
          [104, 101, 108, 108, 111] "d" []).2 =
      (Except.ok (writeByteStreamResponse 200
        [("Content-Type", "application/octet-stream"),
         ("Content-Length", Nat.repr ([104, 101, 108, 108, 111] : List UInt8).length)]
        [104, 101, 108, 108, 111]),
       (route "POST" "/files/report.txt" [("Content-Length", "5")]
          [104, 101, 108, 108, 111] "d" []).2) :=
  post_then_get_roundtrip [104, 101, 108, 108, 111] "report.txt"
    [("Content-Length", "5")] [] [] "d" [] "5" (by decide) (by decide)

/-- C4: For every `POST /files/<f>` whose `Content-Length` header value
parses as `n`, the handler takes exactly the first `n` bytes of the
remaining stream, stores them at the base directory joined with `f`
(create/truncate), and responds 201 with no body (lines 199–213); when
the stream holds at least `n` bytes, exactly `n` bytes are written. -/
theorem post_files_writes_exact_body (f : String) (headers : Headers)
    (rest : List UInt8) (base : String) (fs : Fs) (cl : String) (n : Nat)
    (h1 : hmGet headers "Content-Length" = some cl)
    (h2 : parseU64 cl = some n) :
    route "POST" ("/files/" ++ f) headers rest base fs =
      (Except.ok (writeHeaderOnlyResponse 201 []),
       fsInsert fs (pathJoin base f) (rest.take n)) ∧
    (n ≤ rest.length → (rest.take n).length = n) := by
  constructor
  · rw [route_files_eq]; simp [h1, h2]
  · intro h; simp [List.length_take, Nat.min_eq_left h]

/-- Witness for C4: a 3-byte upload out of a 4-byte remaining stream. -/
theorem post_files_writes_exact_body_witness :
    route "POST" ("/files/" ++ "a.txt") [("Content-Length", "3")]
        [104, 105, 106, 107] "d" [] =
      (Except.ok (writeHeaderOnlyResponse 201 []),
       fsInsert [] (pathJoin "d" "a.txt") (([104, 105, 106, 107] : List UInt8).take 3)) ∧
    (3 ≤ ([104, 105, 106, 107] : List UInt8).length →
      (([104, 105, 106, 107] : List UInt8).take 3).length = 3) :=
  post_files_writes_exact_body "a.txt" [("Content-Length", "3")]
    [104, 105, 106, 107] "d" [] "3" 3 (by decide) (by decide)

/-- C5: For every `POST /files/<f>` whose `Content-Length` header is
absent, or present but not parseable as a `u64`, the handler fails with
`BadRequest` (status 400) and the filesystem is returned unchanged — the
error is raised before `File::create` runs (lines 199–206). -/
theorem post_files_invalid_content_length_atomic (f : String) (headers : Headers)
    (rest : List UInt8) (base : String) (fs : Fs)
    (h : hmGet headers "Content-Length" = none ∨
      ∃ cl, hmGet headers "Content-Length" = some cl ∧ parseU64 cl = none) :
    route "POST" ("/files/" ++ f) headers rest base fs =
      (Except.error (HttpError.badRequest "No valid Content-Length was provided"), fs) ∧
    (HttpError.badRequest "No valid Content-Length was provided").status = 400 := by
  refine ⟨?_, rfl⟩
  rw [route_files_eq]
  rcases h with h | ⟨cl, hcl, hp⟩
  · simp [h]
  · simp [hcl, hp]

/-- Witness for C5: a missing header and a non-numeric header, each
leaving a pre-existing file untouched. -/
theorem post_files_invalid_content_length_atomic_witness :
    route "POST" ("/files/" ++ "b") [] [1, 2] "d" [("d/b", [9])] =
      (Except.error (HttpError.badRequest "No valid Content-Length was provided"),
       [("d/b", ([9] : List UInt8))]) ∧
    route "POST" ("/files/" ++ "b") [("Content-Length", "abc")] [1, 2] "d"
        [("d/b", [9])] =
      (Except.error (HttpError.badRequest "No valid Content-Length was provided"),
       [("d/b", ([9] : List UInt8))]) :=
  ⟨(post_files_invalid_content_length_atomic "b" [] [1, 2] "d" [("d/b", [9])]
      (Or.inl (by decide))).1,
   (post_files_invalid_content_length_atomic "b" [("Content-Length", "abc")] [1, 2]
      "d" [("d/b", [9])]
      (Or.inr ⟨"abc", by decide, by decide⟩)).1⟩

/-- C6: For every request line that `trim` + `splitn(3, ' ')` turns into
fewer than 3 tokens, parsing fails with a `BadRequest` error (status
400) and the supervising task writes a 400 response carrying the error
text (lines 90–99 and 113–124). The handler returns this error as a
value — `handleRequest` and `connectionTrace` are total functions, so
neither the connection task nor the listener can crash on such input. -/
theorem malformed_request_line_yields_400 (line : String) (ls : List String)
    (rest : List UInt8) (base : String) (fs : Fs)
    (h : (rustSplitn 3 ' ' (rustTrim line)).length < 3) :
    ∃ e, parseRequestLine line = Except.error e ∧ e.status = 400 ∧
      connectionTrace line ls rest base fs = (writeStringResponse 400 [] e.msg, fs) := by
  have hpr : ∃ m, parseRequestLine line = Except.error (HttpError.badRequest m) := by
    unfold parseRequestLine
    cases hts : rustSplitn 3 ' ' (rustTrim line) with
    | nil => exact ⟨_, rfl⟩
    | cons a t =>
      cases t with
      | nil => exact ⟨_, rfl⟩
      | cons b t2 =>
        cases t2 with
        | nil => exact ⟨_, rfl⟩
        | cons c t3 =>
          rw [hts] at h
          simp at h
          omega
  obtain ⟨m, hm⟩ := hpr
  refine ⟨HttpError.badRequest m, hm, rfl, ?_⟩
  simp [connectionTrace, handleRequest, hm, HttpError.badRequest]

/-- Witness for C6: the two-token request line `GET /`. -/
theorem malformed_request_line_yields_400_witness :
    ∃ e, parseRequestLine "GET /" = Except.error e ∧ e.status = 400 ∧
      connectionTrace "GET /" [] [] "d" [] =
        (writeStringResponse 400 [] e.msg, ([] : Fs)) :=
  malformed_request_line_yields_400 "GET /" [] [] "d" [] (by decide)

/-- C7: Routing is exhaustive over errors. Any method other than `GET`
and `POST` on a path with the `/files/` prefix fails with
`MethodNotAllowed` (405), and any path matching none of `/`, `/echo/`,
`/user-agent`, `/files/` fails with `NotFound` (404) for every method
(lines 214–219); in both cases the filesystem is unchanged. -/
theorem unmatched_routes_405_404 (method path : String) (headers : Headers)
    (rest : List UInt8) (base : String) (fs : Fs) :
    (∀ f, stripPfx "/files/" path = some f → method ≠ "GET" → method ≠ "POST" →
      route method path headers rest base fs =
        (Except.error (HttpError.methodNotAllowed method), fs)) ∧
    (path ≠ "/" → stripPfx "/echo/" path = none → path ≠ "/user-agent" →
      stripPfx "/files/" path = none →
      route method path headers rest base fs =
        (Except.error HttpError.notFound, fs)) := by
  constructor
  · intro f hf hg hp
    have hpath : path = "/files/" ++ f := stripPfx_eq_some hf
    subst hpath
    rw [route_files_eq]
    simp [hg, hp]
  · intro h1 h2 h3 h4
    simp [route, h1, h2, h3, h4]

/-- Witness for C7: `DELETE /files/x` is 405 and `GET /nonexistent`
is 404. -/
theorem unmatched_routes_405_404_witness :
    route "DELETE" "/files/x" [] [] "d" [] =
      (Except.error (HttpError.methodNotAllowed "DELETE"), ([] : Fs)) ∧
    route "GET" "/nonexistent" [] [] "d" [] =
      (Except.error HttpError.notFound, ([] : Fs)) :=
  ⟨(unmatched_routes_405_404 "DELETE" "/files/x" [] [] "d" []).1 "x"
      (by decide) (by decide) (by decide),
   (unmatched_routes_405_404 "GET" "/nonexistent" [] [] "d" []).2
      (by decide) (by decide) (by decide) (by decide)⟩

/-- C8: On path `/user-agent`, the lookup is by the exact case-sensitive
key `User-Agent` in the parsed header map. When some header line's
trimmed key equals `User-Agent` (the last such line per the map's
overwrite semantics), the response is 200 with body the trimmed value
and `Content-Length` its byte length; when no line has that exact key —
including when only a differently-cased variant such as `user-agent`
was sent — the request fails with `BadRequest` (400) (lines 168–182). -/
theorem user_agent_case_sensitive_lookup (ls : List String) (m : Headers)
    (method : String) (rest : List UInt8) (base : String) (fs : Fs)
    (hm : parseHeaderLines ls = Except.ok m) :
    (∀ v, lastHeaderValue "User-Agent" ls = some v →
      route method "/user-agent" m rest base fs =
        (Except.ok (writeStringResponse 200
          [("Content-Type", "text/plain"),
           ("Content-Length", Nat.repr (strByteLen v))] v), fs)) ∧
    (lastHeaderValue "User-Agent" ls = none →
      route method "/user-agent" m rest base fs =
        (Except.error (HttpError.badRequest "no user agent header in request"), fs)) := by
  have hg : hmGet m "User-Agent" = lastHeaderValue "User-Agent" ls := by
    have haux := parseAux_hmGet "User-Agent" ls [] m hm
    rw [haux]
    cases hl : lastHeaderValue "User-Agent" ls <;> simp [hmGet]
  constructor
  · intro v hv
    rw [route_userAgent, hg, hv]
  · intro hv
    rw [route_userAgent, hg, hv]

/-- Witness for C8: an exact-case `User-Agent` header is reflected; a
lowercase-only `user-agent` header misses and yields 400. -/
theorem user_agent_case_sensitive_lookup_witness :
    route "GET" "/user-agent" [("User-Agent", "foo")] [] "d" [] =
      (Except.ok (writeStringResponse 200
        [("Content-Type", "text/plain"),
         ("Content-Length", Nat.repr (strByteLen "foo"))] "foo"), ([] : Fs)) ∧
    route "GET" "/user-agent" [("user-agent", "curl")] [] "d" [] =
      (Except.error (HttpError.badRequest "no user agent header in request"),
       ([] : Fs)) :=
  ⟨(user_agent_case_sensitive_lookup ["User-Agent: foo\r\n"]
      [("User-Agent", "foo")] "GET" [] "d" [] rfl).1 "foo" (by decide),
   (user_agent_case_sensitive_lookup ["user-agent: curl\r\n"]
      [("user-agent", "curl")] "GET" [] "d" [] rfl).2 (by decide)⟩

/-- C9: Both `GET` and `POST` on `/files/<f>` operate on exactly the
plain join of the base directory with `f` — the `GET` outcome is
determined by the filesystem at `pathJoin base f` and the `POST` writes
at `pathJoin base f` — with no percent-decoding, canonicalization or
containment check (lines 183–186 and 205–206); and for the `..`-bearing
suffix `../etc/passwd` the lexically resolved joined path lies outside
the base directory. -/
theorem files_path_plain_join (f : String) (headers : Headers)
    (rest : List UInt8) (base : String) (fs : Fs) :
    (∀ c, fsLookup fs (pathJoin base f) = some c →
      route "GET" ("/files/" ++ f) headers rest base fs =
        (Except.ok (writeByteStreamResponse 200
          [("Content-Type", "application/octet-stream"),
           ("Content-Length", Nat.repr c.length)] c), fs)) ∧
    (fsLookup fs (pathJoin base f) = none →
      route "GET" ("/files/" ++ f) headers rest base fs =
        (Except.error HttpError.notFound, fs)) ∧
    (∀ cl n, hmGet headers "Content-Length" = some cl → parseU64 cl = some n →
      (route "POST" ("/files/" ++ f) headers rest base fs).2 =
        fsInsert fs (pathJoin base f) (rest.take n)) ∧
    (hasDotDot "../etc/passwd" ∧
      pathJoin "base" "../etc/passwd" = "base/../etc/passwd" ∧
      resolvePath (pathJoin "base" "../etc/passwd") = "etc/passwd" ∧
      ¬ isUnder "base" (resolvePath (pathJoin "base" "../etc/passwd"))) := by
  refine ⟨?_, ?_, ?_, by decide, by decide, by decide, by decide⟩
  · intro c hc; rw [route_files_eq]; simp [hc]
  · intro hc; rw [route_files_eq]; simp [hc]
  · intro cl n h1 h2; rw [route_files_eq]; simp [h1, h2]

/-- Witness for C9: a concrete read at the joined path, a concrete write
at the joined path, and the traversal escape. -/
theorem files_path_plain_join_witness :
    route "GET" ("/files/" ++ "a") [] [] "base" [("base/a", [9])] =
      (Except.ok (writeByteStreamResponse 200
        [("Content-Type", "application/octet-stream"),
         ("Content-Length", Nat.repr ([9] : List UInt8).length)] [9]),
       [("base/a", ([9] : List UInt8))]) ∧
    (route "POST" ("/files/" ++ "a") [("Content-Length", "2")] [1, 2, 3]
        "base" []).2 =
      fsInsert [] (pathJoin "base" "a") (([1, 2, 3] : List UInt8).take 2) ∧
    ¬ isUnder "base" (resolvePath (pathJoin "base" "../etc/passwd")) :=
  ⟨(files_path_plain_join "a" [] [] "base" [("base/a", [9])]).1 [9] (by decide),
   (files_path_plain_join "a" [("Content-Length", "2")] [1, 2, 3] "base" []).2.2.1
      "2" 2 (by decide) (by decide),
   (files_path_plain_join "a" [] [] "base" []).2.2.2.2.2.2⟩

/-- C10: When the header block parses successfully, looking a key up in
the resulting map returns exactly the trimmed value of the last header
line whose trimmed key equals it (`HashMap::insert` overwrites, lines
143–149) — so duplicate headers keep only the last occurrence, and the
`User-Agent` and `Content-Length` lookups see that value. -/
theorem duplicate_headers_last_wins (ls : List String) (m : Headers) (k : String)
    (hm : parseHeaderLines ls = Except.ok m) :
    hmGet m k = lastHeaderValue k ls := by
  have haux := parseAux_hmGet k ls [] m hm
  rw [haux]
  cases hl : lastHeaderValue k ls <;> simp [hmGet]

/-- Witness for C10: two `User-Agent` lines; the map holds the second
value. -/
theorem duplicate_headers_last_wins_witness :
    hmGet [("User-Agent", "second")] "User-Agent" =
      lastHeaderValue "User-Agent"
        ["User-Agent: first\r\n", "User-Agent: second\r\n"] ∧
    lastHeaderValue "User-Agent"
        ["User-Agent: first\r\n", "User-Agent: second\r\n"] = some "second" :=
  ⟨duplicate_headers_last_wins
      ["User-Agent: first\r\n", "User-Agent: second\r\n"]
      [("User-Agent", "second")] "User-Agent" rfl,
   by decide⟩

end HttpServer
